import Mathlib

/-!
Verification development for the git-event-to-issue-tracker relay of the
Scrum-master-Automation repository.

The relay consists of two shell scripts:

* post-commit-hook.sh — installed as a post-commit hook.  It reads
  SCRUM_API_URL and SCRUM_PROJECT_KEY from the environment (with defaults),
  skips on detached HEAD / merge / rebase-apply, extracts an issue key from
  the branch name with grep -oE of the pattern PROJECT_KEY dash digits,
  POSTs a JSON payload with git_action commit, bounded by
  --connect-timeout 5 --max-time 10, judges success by the HTTP status
  being 200, and always exits 0.

* git-hook.sh — the manual / push variant.  It hardcodes the API base URL,
  has no detached / merge / rebase guard, extracts a key with grep -oE of
  the pattern one-or-more uppercase letters, dash, digits, POSTs with
  git_action push and no timeout flags, judges success by the curl exit
  status, and always exits 0.

The embedding below models the branch-name scanning of grep -oE at the
character-list level (leftmost, non-overlapping, longest-at-a-position
matches, exactly the semantics of grep -o for these two patterns), the
environment, the repository state the scripts consult, and the outcome of
the single curl invocation.  The curl stdout splitting of
post-commit-hook.sh (tail -n1 for the -w emitted status line, head -n -1
for the body) is modelled by the CurlResult fields httpCode and body;
curl emits status 0 (printed 000) when no HTTP response was received.
ANSI colour escape sequences around the echoed messages of git-hook.sh
are omitted; the message text is kept verbatim otherwise.
-/

/-- ASCII uppercase letter, the character class A-Z of the grep pattern. -/
def isAsciiUpper (c : Char) : Bool := 'A' ≤ c && c ≤ 'Z'

/-- ASCII digit, the character class 0-9 of the grep pattern. -/
def isAsciiDigit (c : Char) : Bool := '0' ≤ c && c ≤ '9'

/-- Length of the maximal digit run at the head of the list. -/
def digitRunLen : List Char → Nat
  | [] => 0
  | c :: cs => if isAsciiDigit c then digitRunLen cs + 1 else 0

/-- Length of the maximal uppercase-letter run at the head of the list. -/
def upperRunLen : List Char → Nat
  | [] => 0
  | c :: cs => if isAsciiUpper c then upperRunLen cs + 1 else 0

/-- Match attempt, at the head of the string, of the post-commit-hook.sh
pattern: the configured project key literally, a hyphen, then one or more
digits (maximal run, greps longest-match rule).  Returns the length of the
match.  The project key is matched literally, as grep does for the
letters-only keys the scripts are configured with. -/
def matchLitAt (p : List Char) (s : List Char) : Option Nat :=
  if (p ++ ['-']).isPrefixOf s then
    if digitRunLen (s.drop (p.length + 1)) = 0 then none
    else some (p.length + 1 + digitRunLen (s.drop (p.length + 1)))
  else none

/-- Match attempt, at the head of the string, of the git-hook.sh pattern:
one or more uppercase letters, a hyphen, then one or more digits.  The
uppercase run of a match necessarily extends to the hyphen, so the longest
match at a position takes the maximal uppercase run and then the maximal
digit run. -/
def matchAnyAt (s : List Char) : Option Nat :=
  if upperRunLen s = 0 then none
  else
    match s.drop (upperRunLen s) with
    | '-' :: rest =>
      if digitRunLen rest = 0 then none
      else some (upperRunLen s + 1 + digitRunLen rest)
    | _ => none

/-- grep -o scanning: try the matcher at every position from the left; on a
match of length n emit it and resume after it (non-overlapping), otherwise
advance one character.  Fuel-structured for kernel reduction; fuel equal to
the string length always suffices because every match is nonempty. -/
def scanAux (m : List Char → Option Nat) : Nat → List Char → List (List Char)
  | _, [] => []
  | 0, _ :: _ => []
  | fuel + 1, c :: cs =>
    match m (c :: cs) with
    | some n => (c :: cs).take n :: scanAux m fuel ((c :: cs).drop (max n 1))
    | none => scanAux m fuel cs

/-- All matches grep -o prints for the given line, leftmost first. -/
def scanAll (m : List Char → Option Nat) (s : List Char) : List (List Char) :=
  scanAux m s.length s

/-- The lines grep -oE prints for the post-commit-hook.sh pattern. -/
def grepLit (projectKey branch : String) : List String :=
  (scanAll (matchLitAt projectKey.toList) branch.toList).map (fun l => ⟨l⟩)

/-- The lines grep -oE prints for the git-hook.sh pattern. -/
def grepAny (branch : String) : List String :=
  (scanAll matchAnyAt branch.toList).map (fun l => ⟨l⟩)

/-- Command substitution of a multi-line output: the captured variable joins
the printed lines with newlines (trailing newline stripped). -/
def joinLines : List String → String
  | [] => ""
  | [x] => x
  | x :: xs => x ++ "\n" ++ joinLines xs

/-- The JIRA_KEY variable of post-commit-hook.sh. -/
def jiraKeyLit (projectKey branch : String) : String :=
  joinLines (grepLit projectKey branch)

/-- The JIRA_KEY variable of git-hook.sh. -/
def jiraKeyAny (branch : String) : String :=
  joinLines (grepAny branch)

/-- The environment variables the hooks consult.  none models an unset
variable. -/
structure HookEnv where
  scrumApiUrl : Option String
  scrumProjectKey : Option String
deriving DecidableEq

/-- Shell default expansion with the colon-dash operator: the default is
used when the variable is unset or empty. -/
def shellDefault (v : Option String) (d : String) : String :=
  match v with
  | none => d
  | some s => if s = "" then d else s

/-- The repository state the scripts consult: the output of
git rev-parse --abbrev-ref HEAD, and the existence of .git/MERGE_HEAD and
.git/rebase-apply/applying. -/
structure RepoState where
  branchName : String
  mergeHeadExists : Bool
  rebaseApplying : Bool
deriving DecidableEq

/-- The single HTTP request a hook hands to curl. -/
structure HttpRequest where
  method : String
  url : String
  contentType : String
  body : String
  connectTimeout : Option Nat
  maxTime : Option Nat
deriving DecidableEq

/-- Outcome of the curl invocation.  httpCode is the numeric value of the
%\x7bhttp_code\x7d write-out (0, printed 000, when no HTTP response
arrived: transport failure, connection refused, timeout); body is the
response body; exitCode is the curl process exit status (0 on transport
success regardless of the HTTP status). -/
structure CurlResult where
  httpCode : Nat
  body : String
  exitCode : Nat
deriving DecidableEq

/-- Observable behaviour of one hook invocation: the request handed to curl
if any, the echoed messages in order, and the process exit status. -/
structure HookRun where
  request : Option HttpRequest
  messages : List String
  exitCode : Nat
deriving DecidableEq

/-- The JSON payload both hooks send. -/
def payload (branch action : String) : String :=
  "\x7b\"branch_name\": \"" ++ branch ++ "\", \"git_action\": \"" ++ action ++ "\"\x7d"

/-- post-commit-hook.sh, line by line.  Guard, extraction, single curl
attempt with timeout flags, success judged by the HTTP status being 200,
exit 0 on every path. -/
def postCommitHook (env : HookEnv) (repo : RepoState) (net : CurlResult) : HookRun :=
  let apiBaseUrl := shellDefault env.scrumApiUrl "http://localhost:8000/api/v1"
  let projectKey := shellDefault env.scrumProjectKey "SCRUM"
  let branchName := repo.branchName
  if branchName = "HEAD" ∨ repo.mergeHeadExists = true ∨ repo.rebaseApplying = true then
    { request := none, messages := [], exitCode := 0 }
  else
    let jiraKey := jiraKeyLit projectKey branchName
    if jiraKey = "" then
      { request := none, messages := [], exitCode := 0 }
    else
      let announce :=
        "Git Hook: Updating Jira card " ++ jiraKey ++ " for branch '" ++ branchName ++ "'"
      let req : HttpRequest :=
        { method := "POST"
          url := apiBaseUrl ++ "/git-hooks/update-from-branch"
          contentType := "application/json"
          body := payload branchName "commit"
          connectTimeout := some 5
          maxTime := some 10 }
      if net.httpCode = 200 then
        { request := some req
          messages := [announce, "✓ Successfully updated Jira card " ++ jiraKey]
          exitCode := 0 }
      else
        { request := some req
          messages :=
            [announce,
             "✗ Failed to update Jira card " ++ jiraKey ++ " (HTTP " ++ toString net.httpCode ++ ")",
             "Response: " ++ net.body]
          exitCode := 0 }

/-- git-hook.sh, line by line.  Hardcoded base URL, git_action push, no
repository-state guard, permissive extraction pattern, curl without
timeout flags, success judged by the curl exit status, exit 0 on every
path. -/
def gitHook (repo : RepoState) (net : CurlResult) : HookRun :=
  let apiBaseUrl := "http://localhost:8000/api/v1"
  let branchName := repo.branchName
  let gitAction := "push"
  let announce := "Git Hook: Updating Jira card for branch '" ++ branchName ++ "'"
  let jiraKey := jiraKeyAny branchName
  if jiraKey = "" then
    { request := none
      messages :=
        [announce,
         "No Jira key found in branch name '" ++ branchName ++ "'",
         "Branch name should contain a Jira key like SCRUM-25",
         "Examples: feature/SCRUM-25, bugfix/SCRUM-123, SCRUM-456"]
      exitCode := 0 }
  else
    let req : HttpRequest :=
      { method := "POST"
        url := apiBaseUrl ++ "/git-hooks/update-from-branch"
        contentType := "application/json"
        body := payload branchName gitAction
        connectTimeout := none
        maxTime := none }
    if net.exitCode = 0 then
      { request := some req
        messages :=
          [announce,
           "Found Jira key: " ++ jiraKey,
           "Successfully updated Jira card " ++ jiraKey,
           "Response: " ++ net.body]
        exitCode := 0 }
    else
      { request := some req
        messages :=
          [announce,
           "Found Jira key: " ++ jiraKey,
           "Failed to update Jira card " ++ jiraKey,
           "Make sure the backend server is running on " ++ apiBaseUrl]
        exitCode := 0 }

lemma matchLitAt_nil (p : List Char) : matchLitAt p [] = none := by
  cases p <;> simp [matchLitAt, List.isPrefixOf]

lemma matchAnyAt_nil : matchAnyAt [] = none := by
  simp [matchAnyAt, upperRunLen, List.drop_nil]

lemma matchLitAt_pos (p s : List Char) (n : Nat) (h : matchLitAt p s = some n) : 1 ≤ n := by
  unfold matchLitAt at h
  split at h
  · split at h
    · exact absurd h (by simp)
    · injection h with h
      omega
  · exact absurd h (by simp)

lemma matchAnyAt_pos (s : List Char) (n : Nat) (h : matchAnyAt s = some n) : 1 ≤ n := by
  unfold matchAnyAt at h
  split at h
  · exact absurd h (by simp)
  · split at h
    · split at h
      · exact absurd h (by simp)
      · injection h with h
        omega
    · exact absurd h (by simp)


/-- The scan returns nothing precisely when the matcher fails at every
position of the line. -/
lemma scanAux_eq_nil_iff (m : List Char → Option Nat) :
    ∀ (fuel : Nat) (s : List Char), s.length ≤ fuel →
      (scanAux m fuel s = [] ↔ ∀ i < s.length, m (s.drop i) = none) := by
  intro fuel
  induction fuel with
  | zero =>
    intro s hs
    have hnil : s = [] := List.eq_nil_of_length_eq_zero (Nat.le_zero.mp hs)
    subst hnil
    simp [scanAux]
  | succ fuel ih =>
    intro s hs
    cases s with
    | nil => simp [scanAux]
    | cons c cs =>
      cases h : m (c :: cs) with
      | some n =>
        constructor
        · intro hcontra
          simp [scanAux, h] at hcontra
        · intro hall
          have h0 := hall 0 (by simp)
          rw [List.drop_zero, h] at h0
          exact absurd h0 (by simp)
      | none =>
        have hlen : cs.length ≤ fuel := by simpa using hs
        have step : scanAux m (fuel + 1) (c :: cs) = scanAux m fuel cs := by
          simp [scanAux, h]
        rw [step, ih cs hlen]
        constructor
        · intro hall i hi
          cases i with
          | zero => simpa using h
          | succ j =>
            have hj : j < cs.length := by simpa using hi
            simpa [List.drop_succ_cons] using hall j hj
        · intro hall i hi
          have := hall (i + 1) (by simpa using hi)
          simpa [List.drop_succ_cons] using this

/-- Every token the scan returns is a match of the matcher at some position
of the line. -/
lemma scanAux_mem (m : List Char → Option Nat)
    (hpos : ∀ s n, m s = some n → 1 ≤ n) :
    ∀ (fuel : Nat) (s k : List Char), s.length ≤ fuel → k ∈ scanAux m fuel s →
      ∃ i n, m (s.drop i) = some n ∧ k = (s.drop i).take n := by
  intro fuel
  induction fuel with
  | zero =>
    intro s k hs hk
    have hnil : s = [] := List.eq_nil_of_length_eq_zero (Nat.le_zero.mp hs)
    subst hnil
    simp [scanAux] at hk
  | succ fuel ih =>
    intro s k hs hk
    cases s with
    | nil => simp [scanAux] at hk
    | cons c cs =>
      have hlen : cs.length ≤ fuel := by simpa using hs
      cases h : m (c :: cs) with
      | none =>
        have step : scanAux m (fuel + 1) (c :: cs) = scanAux m fuel cs := by
          simp [scanAux, h]
        rw [step] at hk
        obtain ⟨i, n, hm, hkeq⟩ := ih cs k hlen hk
        refine ⟨i + 1, n, ?_, ?_⟩
        · simpa [List.drop_succ_cons] using hm
        · simpa [List.drop_succ_cons] using hkeq
      | some n =>
        have hn : 1 ≤ n := hpos _ _ h
        have hmax : max n 1 = n := by omega
        have step : scanAux m (fuel + 1) (c :: cs)
            = (c :: cs).take n :: scanAux m fuel ((c :: cs).drop n) := by
          simp [scanAux, h, hmax]
        rw [step] at hk
        rcases List.mem_cons.mp hk with hk1 | hk2
        · exact ⟨0, n, by simpa using h, by simpa using hk1⟩
        · have hlen2 : ((c :: cs).drop n).length ≤ fuel := by
            simp only [List.length_drop, List.length_cons]
            omega
          obtain ⟨i, n', hm, hkeq⟩ := ih ((c :: cs).drop n) k hlen2 hk2
          rw [List.drop_drop] at hm hkeq
          exact ⟨n + i, n', hm, hkeq⟩

/-- The first token the scan returns is the match at the leftmost matching
position. -/
lemma scanAux_head (m : List Char → Option Nat) (hm0 : m [] = none) :
    ∀ (fuel : Nat) (s : List Char) (j n : Nat), s.length ≤ fuel →
      m (s.drop j) = some n → (∀ i, i < j → m (s.drop i) = none) →
      (scanAux m fuel s).head? = some ((s.drop j).take n) := by
  intro fuel
  induction fuel with
  | zero =>
    intro s j n hs hj _
    have hnil : s = [] := List.eq_nil_of_length_eq_zero (Nat.le_zero.mp hs)
    subst hnil
    rw [List.drop_nil, hm0] at hj
    exact absurd hj (by simp)
  | succ fuel ih =>
    intro s j n hs hj hlt
    cases s with
    | nil =>
      rw [List.drop_nil, hm0] at hj
      exact absurd hj (by simp)
    | cons c cs =>
      cases j with
      | zero =>
        rw [List.drop_zero] at hj
        simp [scanAux, hj]
      | succ j' =>
        have h0 : m (c :: cs) = none := by simpa using hlt 0 (Nat.succ_pos j')
        have hlen : cs.length ≤ fuel := by simpa using hs
        have step : scanAux m (fuel + 1) (c :: cs) = scanAux m fuel cs := by
          simp [scanAux, h0]
        rw [step, List.drop_succ_cons]
        refine ih cs j' n hlen (by simpa [List.drop_succ_cons] using hj) ?_
        intro i hi
        have := hlt (i + 1) (by omega)
        simpa [List.drop_succ_cons] using this

example : grepLit "SCRUM" "feature/SCRUM-25-fix" = ["SCRUM-25"] := by decide
example : grepAny "feature/SCRUM-25-fix" = ["SCRUM-25"] := by decide
example : grepLit "SCRUM" "chore/cleanup" = [] := by decide
example : grepAny "chore/cleanup" = [] := by decide
example : grepLit "SCRUM" "MYSCRUM-25" = ["SCRUM-25"] := by decide
example : grepAny "MYSCRUM-25" = ["MYSCRUM-25"] := by decide
example : grepLit "SCRUM" "SCRUM-1-and-SCRUM-2" = ["SCRUM-1", "SCRUM-2"] := by decide
example : grepAny "HEAD" = [] := by decide

/-- C1: every execution path of both hook scripts terminates with exit
status 0, whatever the branch name, the configuration and the delivery
outcome. -/
theorem relay_exit_status_always_zero (env : HookEnv) (repo : RepoState) (net : CurlResult) :
    (postCommitHook env repo net).exitCode = 0 ∧ (gitHook repo net).exitCode = 0 := by
  constructor
  · simp only [postCommitHook]
    split
    · rfl
    · split
      · rfl
      · split <;> rfl
  · simp only [gitHook]
    split
    · rfl
    · split <;> rfl

/-- Claim C2 as stated is false: git-hook.sh has no detached-HEAD, merge or
rebase guard, so with a merge in progress and a key-bearing branch it does
hand curl a request. -/
theorem merge_guard_cex :
    (gitHook { branchName := "feature/SCRUM-25", mergeHeadExists := true, rebaseApplying := false }
      { httpCode := 200, body := "ok", exitCode := 0 }).request ≠ none := by decide

/-- C2 (amended): post-commit-hook.sh performs no network call and exits 0
whenever the branch name is HEAD or a merge or rebase-apply is in progress;
git-hook.sh has no such guard, and only the branch name HEAD incidentally
produces no call there, because no key is extracted from it. -/
theorem guard_skips_network (env : HookEnv) (repo : RepoState) (net : CurlResult)
    (h : repo.branchName = "HEAD" ∨ repo.mergeHeadExists = true ∨ repo.rebaseApplying = true) :
    ((postCommitHook env repo net).request = none ∧ (postCommitHook env repo net).exitCode = 0)
    ∧ (repo.branchName = "HEAD" →
        (gitHook repo net).request = none ∧ (gitHook repo net).exitCode = 0) := by
  constructor
  · simp only [postCommitHook]
    rw [if_pos h]
    exact ⟨rfl, rfl⟩
  · intro hh
    obtain ⟨b, mh, ra⟩ := repo
    simp only at hh
    subst hh
    have hkey : jiraKeyAny "HEAD" = "" := by decide
    simp only [gitHook]
    rw [if_pos hkey]
    exact ⟨rfl, rfl⟩

theorem guard_skips_network_witness :
    (postCommitHook { scrumApiUrl := none, scrumProjectKey := none }
      { branchName := "HEAD", mergeHeadExists := false, rebaseApplying := false }
      { httpCode := 200, body := "", exitCode := 0 }).request = none :=
  (guard_skips_network { scrumApiUrl := none, scrumProjectKey := none }
    { branchName := "HEAD", mergeHeadExists := false, rebaseApplying := false }
    { httpCode := 200, body := "", exitCode := 0 } (Or.inl rfl)).1.1

/-- C3: for both extraction patterns, scanning returns nothing exactly when
no position of the branch name starts a key token, every returned key is a
token occurring in the branch name, and extraction from
feature/SCRUM-25-fix with project key SCRUM yields SCRUM-25. -/
theorem key_extraction_finds_token (p s : List Char) :
    (scanAll (matchLitAt p) s = [] ↔ ∀ i < s.length, matchLitAt p (s.drop i) = none)
    ∧ (scanAll matchAnyAt s = [] ↔ ∀ i < s.length, matchAnyAt (s.drop i) = none)
    ∧ (∀ k ∈ scanAll (matchLitAt p) s,
        ∃ i n, matchLitAt p (s.drop i) = some n ∧ k = (s.drop i).take n)
    ∧ (∀ k ∈ scanAll matchAnyAt s,
        ∃ i n, matchAnyAt (s.drop i) = some n ∧ k = (s.drop i).take n)
    ∧ grepLit "SCRUM" "feature/SCRUM-25-fix" = ["SCRUM-25"] := by
  refine ⟨?_, ?_, ?_, ?_, by decide⟩
  · exact scanAux_eq_nil_iff (matchLitAt p) s.length s le_rfl
  · exact scanAux_eq_nil_iff matchAnyAt s.length s le_rfl
  · exact fun k hk => scanAux_mem (matchLitAt p) (matchLitAt_pos p) s.length s k le_rfl hk
  · exact fun k hk => scanAux_mem matchAnyAt matchAnyAt_pos s.length s k le_rfl hk

theorem key_extraction_finds_token_witness :
    scanAll (matchLitAt ("SCRUM".toList)) ("chore/cleanup".toList) = []
    ∧ grepLit "SCRUM" "feature/SCRUM-25-fix" = ["SCRUM-25"] :=
  ⟨(key_extraction_finds_token ("SCRUM".toList) ("chore/cleanup".toList)).1.mpr (by decide),
   (key_extraction_finds_token ("SCRUM".toList) ("chore/cleanup".toList)).2.2.2.2⟩

/-- Claim C4 as stated is false: on a branch name with two key tokens the
JIRA_KEY variable captures every grep match joined by newlines, not only
the leftmost one. -/
theorem first_match_only_cex :
    jiraKeyLit "SCRUM" "SCRUM-1-and-SCRUM-2" ≠ "SCRUM-1"
    ∧ grepLit "SCRUM" "SCRUM-1-and-SCRUM-2" = ["SCRUM-1", "SCRUM-2"] := by decide

/-- C4 (amended): extraction returns every non-overlapping match in
left-to-right order, the leftmost one first (newline-joined in the
captured variable); it does not discard the later matches. -/
theorem leftmost_match_first (p s : List Char) (j n : Nat)
    (hj : matchLitAt p (s.drop j) = some n)
    (hmin : ∀ i, i < j → matchLitAt p (s.drop i) = none) :
    (scanAll (matchLitAt p) s).head? = some ((s.drop j).take n)
    ∧ grepLit "SCRUM" "SCRUM-1-and-SCRUM-2" = ["SCRUM-1", "SCRUM-2"] :=
  ⟨scanAux_head (matchLitAt p) (matchLitAt_nil p) s.length s j n le_rfl hj hmin, by decide⟩

theorem leftmost_match_first_witness :
    (scanAll (matchLitAt ("SCRUM".toList)) ("SCRUM-1-and-SCRUM-2".toList)).head?
      = some ((("SCRUM-1-and-SCRUM-2".toList).drop 0).take 7) :=
  (leftmost_match_first ("SCRUM".toList) ("SCRUM-1-and-SCRUM-2".toList) 0 7 (by decide)
    (fun i hi => absurd hi (Nat.not_lt_zero i))).1

/-- Claim C5 as stated is false: git-hook.sh judges the delivery by the
curl process exit status, so an HTTP 500 response (curl exit 0) is
reported as a success, not as a delivery failure. -/
theorem http_status_ignored_cex :
    "Successfully updated Jira card SCRUM-25"
        ∈ (gitHook { branchName := "feature/SCRUM-25", mergeHeadExists := false, rebaseApplying := false }
            { httpCode := 500, body := "oops", exitCode := 0 }).messages
    ∧ (gitHook { branchName := "feature/SCRUM-25", mergeHeadExists := false, rebaseApplying := false }
        { httpCode := 500, body := "oops", exitCode := 0 }).request ≠ none := by decide

/-- C5 (amended): post-commit-hook.sh reports success exactly when the HTTP
status is 200 and its failure message carries the key, the status code and
the response body; git-hook.sh instead reports success exactly when the
curl transport succeeded (exit status 0), regardless of the HTTP status,
and its failure message carries the key but neither a status code nor the
response body. -/
theorem delivery_outcome_reporting (env : HookEnv) (repo : RepoState) (net : CurlResult)
    (hg : ¬(repo.branchName = "HEAD" ∨ repo.mergeHeadExists = true ∨ repo.rebaseApplying = true))
    (hk : jiraKeyLit (shellDefault env.scrumProjectKey "SCRUM") repo.branchName ≠ "") :
    ((net.httpCode = 200 →
      (postCommitHook env repo net).messages =
        ["Git Hook: Updating Jira card "
            ++ jiraKeyLit (shellDefault env.scrumProjectKey "SCRUM") repo.branchName
            ++ " for branch '" ++ repo.branchName ++ "'",
         "✓ Successfully updated Jira card "
            ++ jiraKeyLit (shellDefault env.scrumProjectKey "SCRUM") repo.branchName])
    ∧ (net.httpCode ≠ 200 →
      (postCommitHook env repo net).messages =
        ["Git Hook: Updating Jira card "
            ++ jiraKeyLit (shellDefault env.scrumProjectKey "SCRUM") repo.branchName
            ++ " for branch '" ++ repo.branchName ++ "'",
         "✗ Failed to update Jira card "
            ++ jiraKeyLit (shellDefault env.scrumProjectKey "SCRUM") repo.branchName
            ++ " (HTTP " ++ toString net.httpCode ++ ")",
         "Response: " ++ net.body]))
    ∧ (jiraKeyAny repo.branchName ≠ "" →
      ((net.exitCode = 0 →
        (gitHook repo net).messages =
          ["Git Hook: Updating Jira card for branch '" ++ repo.branchName ++ "'",
           "Found Jira key: " ++ jiraKeyAny repo.branchName,
           "Successfully updated Jira card " ++ jiraKeyAny repo.branchName,
           "Response: " ++ net.body])
      ∧ (net.exitCode ≠ 0 →
        (gitHook repo net).messages =
          ["Git Hook: Updating Jira card for branch '" ++ repo.branchName ++ "'",
           "Found Jira key: " ++ jiraKeyAny repo.branchName,
           "Failed to update Jira card " ++ jiraKeyAny repo.branchName,
           "Make sure the backend server is running on " ++ "http://localhost:8000/api/v1"]))) := by
  refine ⟨⟨?_, ?_⟩, ?_⟩
  · intro h200
    simp only [postCommitHook]
    rw [if_neg hg, if_neg hk, if_pos h200]
  · intro hno
    simp only [postCommitHook]
    rw [if_neg hg, if_neg hk, if_neg hno]
  · intro hk2
    refine ⟨?_, ?_⟩
    · intro h0
      simp only [gitHook]
      rw [if_neg hk2, if_pos h0]
    · intro hno
      simp only [gitHook]
      rw [if_neg hk2, if_neg hno]

theorem delivery_outcome_reporting_witness :
    (postCommitHook { scrumApiUrl := none, scrumProjectKey := none }
      { branchName := "feature/SCRUM-25", mergeHeadExists := false, rebaseApplying := false }
      { httpCode := 200, body := "ok", exitCode := 0 }).messages =
      ["Git Hook: Updating Jira card SCRUM-25 for branch 'feature/SCRUM-25'",
       "✓ Successfully updated Jira card SCRUM-25"] := by
  have h := (delivery_outcome_reporting { scrumApiUrl := none, scrumProjectKey := none }
    { branchName := "feature/SCRUM-25", mergeHeadExists := false, rebaseApplying := false }
    { httpCode := 200, body := "ok", exitCode := 0 } (by decide) (by decide)).1.1 rfl
  exact h

/-- The request post-commit-hook.sh builds for the branch feature/SCRUM-25
under the default configuration; used to witness the timeout and wire
contracts. -/
def sampleCommitRequest : HttpRequest :=
  { method := "POST"
    url := "http://localhost:8000/api/v1" ++ "/git-hooks/update-from-branch"
    contentType := "application/json"
    body := payload "feature/SCRUM-25" "commit"
    connectTimeout := some 5
    maxTime := some 10 }

/-- Claim C6 as stated is false: the curl invocation of git-hook.sh carries
no connect timeout and no total timeout, so its delivery attempt is not
bounded. -/
theorem delivery_timeout_cex :
    ((gitHook { branchName := "feature/SCRUM-25", mergeHeadExists := false, rebaseApplying := false }
        { httpCode := 200, body := "", exitCode := 0 }).request.map HttpRequest.connectTimeout
      = some none)
    ∧ ((gitHook { branchName := "feature/SCRUM-25", mergeHeadExists := false, rebaseApplying := false }
        { httpCode := 200, body := "", exitCode := 0 }).request.map HttpRequest.maxTime
      = some none) := by decide

/-- C6 (amended): every delivery attempt of post-commit-hook.sh is bounded
by the fixed flags connect timeout 5 seconds and total timeout 10 seconds;
the attempt of git-hook.sh carries no timeout bound at all. -/
theorem delivery_timeout_bounds (env : HookEnv) (repo : RepoState) (net : CurlResult)
    (req : HttpRequest) :
    ((postCommitHook env repo net).request = some req →
      req.connectTimeout = some 5 ∧ req.maxTime = some 10)
    ∧ ((gitHook repo net).request = some req →
      req.connectTimeout = none ∧ req.maxTime = none) := by
  constructor
  · intro h
    simp only [postCommitHook] at h
    split at h
    · exact absurd h (by simp)
    · split at h
      · exact absurd h (by simp)
      · split at h <;>
          (simp only [Option.some.injEq] at h; subst h; exact ⟨rfl, rfl⟩)
  · intro h
    simp only [gitHook] at h
    split at h
    · exact absurd h (by simp)
    · split at h <;>
        (simp only [Option.some.injEq] at h; subst h; exact ⟨rfl, rfl⟩)

theorem delivery_timeout_bounds_witness :
    sampleCommitRequest.connectTimeout = some 5 ∧ sampleCommitRequest.maxTime = some 10 :=
  (delivery_timeout_bounds { scrumApiUrl := none, scrumProjectKey := none }
    { branchName := "feature/SCRUM-25", mergeHeadExists := false, rebaseApplying := false }
    { httpCode := 200, body := "", exitCode := 0 } sampleCommitRequest).1 (by decide)

/-- C7: when extraction finds no key, both hooks hand nothing to curl and
exit 0; in particular on the branch chore/cleanup neither pattern matches,
no request is made and the exit status is 0. -/
theorem no_key_no_network (env : HookEnv) (repo : RepoState) (net : CurlResult) :
    (grepLit (shellDefault env.scrumProjectKey "SCRUM") repo.branchName = [] →
      (postCommitHook env repo net).request = none ∧ (postCommitHook env repo net).exitCode = 0)
    ∧ (grepAny repo.branchName = [] →
      (gitHook repo net).request = none ∧ (gitHook repo net).exitCode = 0)
    ∧ grepLit "SCRUM" "chore/cleanup" = [] ∧ grepAny "chore/cleanup" = [] := by
  refine ⟨?_, ?_, by decide, by decide⟩
  · intro h
    have hk : jiraKeyLit (shellDefault env.scrumProjectKey "SCRUM") repo.branchName = "" := by
      rw [jiraKeyLit, h]
      rfl
    simp only [postCommitHook, hk]
    split
    · exact ⟨rfl, rfl⟩
    · split
      · exact ⟨rfl, rfl⟩
      · next hfalse => exact absurd trivial hfalse
  · intro h
    have hk : jiraKeyAny repo.branchName = "" := by
      rw [jiraKeyAny, h]
      rfl
    simp only [gitHook, hk]
    split
    · exact ⟨rfl, rfl⟩
    · next hfalse => exact absurd trivial hfalse

theorem no_key_no_network_witness :
    (postCommitHook { scrumApiUrl := none, scrumProjectKey := none }
      { branchName := "chore/cleanup", mergeHeadExists := false, rebaseApplying := false }
      { httpCode := 200, body := "", exitCode := 0 }).request = none :=
  ((no_key_no_network { scrumApiUrl := none, scrumProjectKey := none }
    { branchName := "chore/cleanup", mergeHeadExists := false, rebaseApplying := false }
    { httpCode := 200, body := "", exitCode := 0 }).1 (by decide)).1

/-- C8: whatever request a hook hands to curl is a POST to the
git-hooks/update-from-branch path under its API base URL whose JSON body
carries exactly the branch name and the git action, commit for the
post-commit hook and push for git-hook.sh. -/
theorem request_wire_contract (env : HookEnv) (repo : RepoState) (net : CurlResult)
    (req : HttpRequest) :
    ((postCommitHook env repo net).request = some req →
      req.method = "POST"
      ∧ req.url = shellDefault env.scrumApiUrl "http://localhost:8000/api/v1"
          ++ "/git-hooks/update-from-branch"
      ∧ req.contentType = "application/json"
      ∧ req.body = payload repo.branchName "commit")
    ∧ ((gitHook repo net).request = some req →
      req.method = "POST"
      ∧ req.url = "http://localhost:8000/api/v1" ++ "/git-hooks/update-from-branch"
      ∧ req.contentType = "application/json"
      ∧ req.body = payload repo.branchName "push") := by
  constructor
  · intro h
    simp only [postCommitHook] at h
    split at h
    · exact absurd h (by simp)
    · split at h
      · exact absurd h (by simp)
      · split at h <;>
          (simp only [Option.some.injEq] at h; subst h; exact ⟨rfl, rfl, rfl, rfl⟩)
  · intro h
    simp only [gitHook] at h
    split at h
    · exact absurd h (by simp)
    · split at h <;>
        (simp only [Option.some.injEq] at h; subst h; exact ⟨rfl, rfl, rfl, rfl⟩)

theorem request_wire_contract_witness :
    sampleCommitRequest.method = "POST"
    ∧ sampleCommitRequest.url = shellDefault none "http://localhost:8000/api/v1"
        ++ "/git-hooks/update-from-branch"
    ∧ sampleCommitRequest.contentType = "application/json"
    ∧ sampleCommitRequest.body = payload "feature/SCRUM-25" "commit" :=
  (request_wire_contract { scrumApiUrl := none, scrumProjectKey := none }
    { branchName := "feature/SCRUM-25", mergeHeadExists := false, rebaseApplying := false }
    { httpCode := 200, body := "", exitCode := 0 } sampleCommitRequest).1 (by decide)

/-- Claim C9 as stated is false: with SCRUM_PROJECT_KEY unset
post-commit-hook.sh extracts with the default project key SCRUM, not with
an any-uppercase-letters pattern, so the uppercase key ABC-123 is not
extracted and no request is made, while the permissive pattern of
git-hook.sh would find it. -/
theorem unset_projectkey_cex :
    grepLit "SCRUM" "feature/ABC-123" = []
    ∧ (postCommitHook { scrumApiUrl := none, scrumProjectKey := none }
        { branchName := "feature/ABC-123", mergeHeadExists := false, rebaseApplying := false }
        { httpCode := 200, body := "", exitCode := 0 }).request = none
    ∧ grepAny "feature/ABC-123" = ["ABC-123"] := by decide

/-- C9 (amended): absence of an environment variable is never an error:
post-commit-hook.sh then behaves exactly as if SCRUM_API_URL were the
documented default URL and SCRUM_PROJECT_KEY were SCRUM, so extraction
accepts only SCRUM-prefixed keys; the any-uppercase pattern belongs to
git-hook.sh alone, which reads no environment configuration at all. -/
theorem env_defaults_apply (repo : RepoState) (net : CurlResult) :
    postCommitHook { scrumApiUrl := none, scrumProjectKey := none } repo net
      = postCommitHook
          { scrumApiUrl := some "http://localhost:8000/api/v1", scrumProjectKey := some "SCRUM" }
          repo net := by
  have hurl : shellDefault none "http://localhost:8000/api/v1"
      = shellDefault (some "http://localhost:8000/api/v1") "http://localhost:8000/api/v1" := by
    decide
  have hkey : shellDefault none "SCRUM" = shellDefault (some "SCRUM") "SCRUM" := by decide
  simp only [postCommitHook, hurl, hkey]

/-- C10: the configured project key is matched as an unanchored substring
of the branch name: wherever the key pattern matches at some offset the
scan returns a token, and on the branch MYSCRUM-25 with project key SCRUM
extraction returns SCRUM-25 even though the key occurrence is the tail of
the longer uppercase run MYSCRUM. -/
theorem unanchored_substring_match (p s : List Char) (i n : Nat)
    (h : matchLitAt p (s.drop i) = some n) :
    scanAll (matchLitAt p) s ≠ []
    ∧ grepLit "SCRUM" "MYSCRUM-25" = ["SCRUM-25"] := by
  refine ⟨?_, by decide⟩
  intro hnil
  have hall := (scanAux_eq_nil_iff (matchLitAt p) s.length s le_rfl).mp hnil
  by_cases hi : i < s.length
  · rw [hall i hi] at h
    exact absurd h (by simp)
  · have hdrop : s.drop i = [] := List.drop_eq_nil_of_le (Nat.le_of_not_lt hi)
    rw [hdrop, matchLitAt_nil] at h
    exact absurd h (by simp)

theorem unanchored_substring_match_witness :
    scanAll (matchLitAt ("SCRUM".toList)) ("MYSCRUM-25".toList) ≠ []
    ∧ grepLit "SCRUM" "MYSCRUM-25" = ["SCRUM-25"] :=
  unanchored_substring_match ("SCRUM".toList) ("MYSCRUM-25".toList) 2 8 (by decide)
